import Mathlib

/-!
Shallow embedding of the Git-worktree management server (src/index.ts).

The program is a single Express server.  Its core logic is:
  - `getWorktreesDir`        : derive the worktrees container directory,
  - `isValidWorktreeName`    : validate a workspace name,
  - `getCurrentBranch`       : ask git for the current branch of a path,
  - `getWorktreePathForBranch`: find which worktree (if any) has a branch checked out,
  - `createWorktree`         : the provisioning state machine,
  - the request middleware in `main` : cache lookup, validation, "main" special case,
    provisioning, and caching of the per-workspace dev-server handle.

External effects (git commands, filesystem probes, pnpm install) are modelled by an
environment record `Env` holding the responses the external world would give during
one provisioning attempt, and every external invocation is recorded in a trace of
`ExtOp` values, so that claims of the form "no creation command is issued" become
statements about the trace.  Node's `path` module functions are modelled for the
POSIX inputs this program uses (absolute paths without trailing separators, and
single path segments drawn from the validated character set); `path.resolve` is
kept abstract as a field of `Env` since it depends on the process working
directory.
-/

/-- Character-list splitter modelling the JavaScript `"…".split("\n")` used on the
porcelain output: splits at every newline, keeping empty pieces. -/
def splitNlAux : List Char → List Char → List String
  | '\n' :: rest, acc => String.mk acc.reverse :: splitNlAux rest []
  | c :: rest, acc => splitNlAux rest (c :: acc)
  | [], acc => [String.mk acc.reverse]

/-- Model of the JavaScript `s.split("\n")`. -/
def splitNewline (s : String) : List String := splitNlAux s.data []

/-- Character-list splitter modelling the JavaScript `"…".split("\n\n")`: splits at
every occurrence of two consecutive newlines, scanning left to right. -/
def splitNlNlAux : List Char → List Char → List String
  | '\n' :: '\n' :: rest, acc => String.mk acc.reverse :: splitNlNlAux rest []
  | c :: rest, acc => splitNlNlAux rest (c :: acc)
  | [], acc => [String.mk acc.reverse]

/-- Model of the JavaScript `s.split("\n\n")`. -/
def splitDoubleNewline (s : String) : List String := splitNlNlAux s.data []

/-- Whitespace characters trimmed by the JavaScript `String.prototype.trim` that can
occur in the outputs this program trims. -/
def jsWs (c : Char) : Bool := c == ' ' || c == '\n' || c == '\t' || c == '\r'

/-- Model of the JavaScript `s.trim()`. -/
def trimChars (s : String) : String :=
  String.mk (((s.data.dropWhile jsWs).reverse.dropWhile jsWs).reverse)

/-- Model of the JavaScript `s.startsWith(pre)`. -/
def strStartsWith (s pre : String) : Bool := List.isPrefixOf pre.data s.data

/-- Model of the JavaScript `s.substring(n)` for an ASCII prefix of length `n`. -/
def strDrop (s : String) (n : Nat) : String := String.mk (s.data.drop n)

/-- Model of Node `path.join(a, b)` for the inputs used by the program: a directory
path without trailing separator joined with a single normal segment. -/
def pathJoin (a b : String) : String := a ++ "/" ++ b

/-- Model of Node `path.basename(p)` for a path without trailing separator: the part
after the final separator. -/
def pathBasename (p : String) : String :=
  String.mk ((p.data.reverse.takeWhile (fun c => !(c == '/'))).reverse)

/-- Model of Node `path.dirname(p)` for a path without trailing separator whose
parent is not the filesystem root. -/
def pathDirname (p : String) : String :=
  if p.data.contains '/' then
    String.mk (((p.data.reverse.dropWhile (fun c => !(c == '/'))).drop 1).reverse)
  else "."

/-- Constant `ACTUAL_MAIN_BRANCH` from src/index.ts: the base branch for new
worktree branches. -/
def ACTUAL_MAIN_BRANCH : String := "main"

/-- Embedding of `getWorktreesDir` (src/index.ts): the sibling directory named
after the repository directory with a "-worktrees" suffix. -/
def getWorktreesDir (repoPath : String) : String :=
  let dirName := pathBasename repoPath
  let parentDir := pathDirname repoPath
  pathJoin parentDir (dirName ++ "-worktrees")

/-- Embedding of `isValidWorktreeName` (src/index.ts): the regular expression
test against ASCII letters, digits, dash and underscore, requiring at least one
character. -/
def isValidWorktreeName (name : String) : Bool :=
  name != "" && name.data.all (fun c => c.isAlpha || c.isDigit || c == '-' || c == '_')

/-- External operations the program can invoke, recorded in traces.  Each
constructor corresponds to one external call site in src/index.ts. -/
inductive ExtOp where
  | revParseIsInsideWorkTree (cwd : String)
  | revParseHead (cwd : String)
  | worktreeList (cwd : String)
  | fsExists (p : String)
  | fsReaddir (p : String)
  | mkdirRecursive (p : String)
  | verifyCommit (ref cwd : String)
  | showRefVerify (branch cwd : String)
  | worktreeAddNewBranch (branch p base cwd : String)
  | worktreeAddExistingBranch (p branch cwd : String)
  | pnpmInstall (cwd : String)
deriving DecidableEq, Repr

/-- Operations that issue a checkout-creation command ("git worktree add"). -/
def isCreationOp : ExtOp → Bool
  | .worktreeAddNewBranch _ _ _ _ => true
  | .worktreeAddExistingBranch _ _ _ => true
  | _ => false

/-- Operations that mutate external state: checkout creation, directory creation
and dependency installation.  Everything else is a read-only query. -/
def isMutatingOp : ExtOp → Bool
  | .worktreeAddNewBranch _ _ _ _ => true
  | .worktreeAddExistingBranch _ _ _ => true
  | .mkdirRecursive _ => true
  | .pnpmInstall _ => true
  | _ => false

/-- Responses of the external world observed during one provisioning attempt.
Each field is the result the corresponding external call would produce; `.error`
models a rejected promise (non-zero exit) carrying its diagnostic. -/
structure Env where
  resolve : String → String
  isInsideWorkTreeOut : Except String String
  headOut : Except String String
  worktreeListOut : Except String String
  verifyBaseOut : Except String String
  showRefOut : Except String String
  worktreeAddOut : Except String String
  pnpmOut : Except String (String × String)
  existsSync : String → Bool
  readdirSync : String → List String

/-- Embedding of `getCurrentBranch` (src/index.ts): null unless the path is inside
a work tree and `git rev-parse --abbrev-ref HEAD` reports something other than the
sentinel "HEAD"; any command rejection is caught and yields null. -/
def getCurrentBranch (env : Env) (repoPath : String) : Option String × List ExtOp :=
  match env.isInsideWorkTreeOut with
  | .error _ => (none, [.revParseIsInsideWorkTree repoPath])
  | .ok isGitRepoStdout =>
    if trimChars isGitRepoStdout != "true" then
      (none, [.revParseIsInsideWorkTree repoPath])
    else
      match env.headOut with
      | .error _ => (none, [.revParseIsInsideWorkTree repoPath, .revParseHead repoPath])
      | .ok branchStdout =>
        let branch := trimChars branchStdout
        (if branch == "HEAD" then none else some branch,
          [.revParseIsInsideWorkTree repoPath, .revParseHead repoPath])

/-- Parsed state of one porcelain entry after the inner line loop of
`getWorktreePathForBranch` and of the path check inside `createWorktree`: the last
"worktree " line and the last "branch refs/heads/" line seen, each defaulting to
the empty string. -/
structure WtEntryState where
  path : String
  branch : String
deriving DecidableEq, Repr

/-- Embedding of the per-entry line loop of src/index.ts: fold over the lines of
one entry, recording the payloads of "worktree " and "branch refs/heads/" lines. -/
def parseWorktreeEntry (lines : List String) : WtEntryState :=
  lines.foldl
    (fun r line =>
      if strStartsWith line ("worktree ") then { r with path := strDrop line 9 }
      else if strStartsWith line ("branch refs/heads/") then { r with branch := strDrop line 18 }
      else r)
    { path := "", branch := "" }

/-- Embedding of the entry loop of `getWorktreePathForBranch`: skip blank entries,
and return the resolved path of the first entry whose path is nonempty and whose
branch field equals the requested branch. -/
def scanEntriesForBranch (resolve : String → String) (branchName : String) :
    List String → Option String
  | [] => none
  | entry :: rest =>
    if trimChars entry = "" then scanEntriesForBranch resolve branchName rest
    else
      let r := parseWorktreeEntry (splitNewline entry)
      if r.path ≠ "" ∧ r.branch = branchName then some (resolve r.path)
      else scanEntriesForBranch resolve branchName rest

/-- Embedding of `getWorktreePathForBranch` (src/index.ts): parse the porcelain
worktree list looking for the branch.  When the listing command succeeds, the
entry loop's result is final: a match returns its resolved path and no match
returns null from inside the try block.  Only when the listing command rejects
does control fall through the catch to the current-branch check of the primary
working copy. -/
def getWorktreePathForBranch (env : Env) (branchName repoPath : String) :
    Option String × List ExtOp :=
  match env.worktreeListOut with
  | .error _ =>
    let cb := getCurrentBranch env repoPath
    (if cb.1 = some branchName then some (env.resolve repoPath) else none,
      .worktreeList repoPath :: cb.2)
  | .ok stdout =>
    (scanEntriesForBranch env.resolve branchName (splitDoubleNewline stdout),
      [.worktreeList repoPath])

/-- Outcome of one `createWorktree` attempt.  Each constructor corresponds to one
return site of `createWorktree` in src/index.ts, carrying the data interpolated
into that site's message string. -/
inductive CreateResult where
  /-- Return site "Worktree … already exists at …" (success, idempotent). -/
  | alreadyExists (name branch targetPath : String)
  /-- Return site "Branch … is already checked out by another worktree at …". -/
  | branchCheckedOutElsewhere (branch existingPath : String)
  /-- Return site "Directory … is already a worktree for branch …". -/
  | pathOccupiedByOtherBranch (targetPath otherBranch branch : String)
  /-- Return site "Directory … already exists and is not empty". -/
  | nonEmptyDirectory (targetPath : String)
  /-- Return site "The base branch … is not a valid commit or does not exist". -/
  | invalidBaseBranch (detail : String)
  /-- Return site "Successfully created worktree …" (success). -/
  | created (name branch targetPath details : String)
  /-- Outer catch handler: "Failed to create worktree: …" with the rejection
  diagnostic of whichever command rejected. -/
  | caughtError (detail : String)
deriving DecidableEq, Repr

/-- Success flag of the result record returned by `createWorktree`. -/
def successOf : CreateResult → Bool
  | .alreadyExists _ _ _ => true
  | .created _ _ _ _ => true
  | _ => false

/-- Embedding of the second porcelain scan inside `createWorktree`: skip blank
entries, and report the branch of the first entry whose resolved path equals the
resolved target path while its branch differs from the intended one. -/
def findOccupierBranch (resolve : String → String)
    (targetWorktreePath branchForWorktree : String) : List String → Option String
  | [] => none
  | entry :: rest =>
    if trimChars entry = "" then
      findOccupierBranch resolve targetWorktreePath branchForWorktree rest
    else
      let r := parseWorktreeEntry (splitNewline entry)
      if resolve r.path = resolve targetWorktreePath ∧ r.branch ≠ branchForWorktree then
        some r.branch
      else findOccupierBranch resolve targetWorktreePath branchForWorktree rest

/-- Embedding of the tail of `createWorktree` after the directory-occupancy check:
ensure the worktrees container directory exists, verify the base branch, test
whether the derived branch already exists, run the matching "git worktree add"
variant, and finally run the best-effort "pnpm install".  The accumulated trace
`t` records the operations already performed. -/
def createWorktreeAfterDirCheck (env : Env)
    (name repoPath targetWorktreePath branchForWorktree : String)
    (t : List ExtOp) : CreateResult × List ExtOp :=
  let worktreesDir := getWorktreesDir repoPath
  let t1 := t ++ [.fsExists worktreesDir]
  let t2 := if env.existsSync worktreesDir then t1 else t1 ++ [.mkdirRecursive worktreesDir]
  let t3 := t2 ++ [.verifyCommit ACTUAL_MAIN_BRANCH repoPath]
  match env.verifyBaseOut with
  | .error checkErrorDetail => (.invalidBaseBranch checkErrorDetail, t3)
  | .ok _ =>
    let t4 := t3 ++ [.showRefVerify branchForWorktree repoPath]
    let branchDidExist := match env.showRefOut with | .ok _ => true | .error _ => false
    let t5 := t4 ++
      [if branchDidExist then
        .worktreeAddExistingBranch targetWorktreePath branchForWorktree repoPath
      else
        .worktreeAddNewBranch branchForWorktree targetWorktreePath ACTUAL_MAIN_BRANCH repoPath]
    match env.worktreeAddOut with
    | .error e => (.caughtError e, t5)
    | .ok addCmdOutput =>
      let t6 := t5 ++ [.pnpmInstall targetWorktreePath]
      (.created name branchForWorktree targetWorktreePath addCmdOutput, t6)

/-- Embedding of `createWorktree` (src/index.ts): derive the branch and target
path, run the branch-ownership check, the path-ownership check and the
directory-occupancy check, and only then create.  A rejection of the second
worktree-list command is caught by the outer catch handler. -/
def createWorktree (env : Env) (name repoPath : String) : CreateResult × List ExtOp :=
  let targetWorktreePath := pathJoin (getWorktreesDir repoPath) name
  let branchForWorktree := name ++ "-branch"
  let lookup := getWorktreePathForBranch env branchForWorktree repoPath
  match lookup.1 with
  | some existingPathForBranch =>
    if env.resolve existingPathForBranch = env.resolve targetWorktreePath then
      (.alreadyExists name branchForWorktree targetWorktreePath, lookup.2)
    else
      (.branchCheckedOutElsewhere branchForWorktree existingPathForBranch, lookup.2)
  | none =>
    match env.worktreeListOut with
    | .error e => (.caughtError e, lookup.2 ++ [.worktreeList repoPath])
    | .ok wtListStdOut =>
      let t2 := lookup.2 ++ [.worktreeList repoPath]
      match findOccupierBranch env.resolve targetWorktreePath branchForWorktree
          (splitDoubleNewline wtListStdOut) with
      | some currentEntryBranch =>
        (.pathOccupiedByOtherBranch targetWorktreePath currentEntryBranch branchForWorktree, t2)
      | none =>
        let t3 := t2 ++ [.fsExists targetWorktreePath]
        if env.existsSync targetWorktreePath then
          let filesInDir := env.readdirSync targetWorktreePath
          let t4 := t3 ++ [.fsReaddir targetWorktreePath]
          if filesInDir.length > 0 then (.nonEmptyDirectory targetWorktreePath, t4)
          else createWorktreeAfterDirCheck env name repoPath targetWorktreePath branchForWorktree t4
        else createWorktreeAfterDirCheck env name repoPath targetWorktreePath branchForWorktree t3

/-- Cached per-workspace environment handle: the root path and base path with
which the dev-server instance for the workspace is constructed.  The server
instance itself is opaque and fully determined by these two fields. -/
structure Handle where
  root : String
  base : String
deriving DecidableEq, Repr

/-- Lookup in the `viteServers` record keyed by workspace name. -/
def lookupServer (cache : List (String × Handle)) (k : String) : Option Handle :=
  match cache with
  | [] => none
  | (n, h) :: rest => if n = k then some h else lookupServer rest k

/-- Observable outcome of one pass through the request middleware in `main`
(src/index.ts).  Serving through the dev-server instance (index.html
transformation) is elided: what matters to the claims is which branch of the
middleware fired and with which handle. -/
inductive HandlerResult where
  /-- An already-cached server handled the request. -/
  | servedCached (h : Handle)
  /-- The worktree route parameter failed validation and the middleware passed
  the request to the next handler. -/
  | passedToNext
  /-- Defensive 400 response for an empty worktree name. -/
  | badRequest
  /-- Provisioning failed; 500 response carrying the failure. -/
  | errorResponse (status : Nat) (failure : CreateResult)
  /-- The request was served from a newly prepared environment handle. -/
  | served (h : Handle)
deriving DecidableEq, Repr

/-- Embedding of the request middleware in `main` (src/index.ts) for a single
request: cache lookup, name validation (invalid names fall through to the next
handler), the "main" special case (no provisioning, root = repository path, base
path "/main/", best-effort pnpm install), and otherwise provisioning through
`createWorktree` followed by installing the handle in the cache.  Returns the
response, the trace of external operations, and the updated cache. -/
def handleRequest (env : Env) (cache : List (String × Handle))
    (worktreeFromParam repoPath : String) :
    HandlerResult × List ExtOp × List (String × Handle) :=
  match lookupServer cache worktreeFromParam with
  | some h => (.servedCached h, [], cache)
  | none =>
    if isValidWorktreeName worktreeFromParam then
      if worktreeFromParam = "" then (.badRequest, [], cache)
      else if worktreeFromParam = "main" then
        let h : Handle := { root := repoPath, base := "/main/" }
        (.served h, [.pnpmInstall repoPath],
          if (lookupServer cache worktreeFromParam).isSome then cache
          else cache ++ [(worktreeFromParam, h)])
      else
        let r := createWorktree env worktreeFromParam repoPath
        if successOf r.1 then
          let h : Handle := { root := pathJoin (getWorktreesDir repoPath) worktreeFromParam,
                              base := "/" ++ worktreeFromParam ++ "/" }
          (.served h, r.2,
            if (lookupServer cache worktreeFromParam).isSome then cache
            else cache ++ [(worktreeFromParam, h)])
        else (.errorResponse 500 r.1, r.2, cache)
    else (.passedToNext, [], cache)

/-- Progress of one in-flight request through the middleware, for the
interleaving model of two concurrent requests.  The middleware suspends at every
awaited external call; in particular the synchronous cache check and the
completion of provisioning happen in different scheduling slices. -/
inductive ReqPhase where
  /-- The request has not run yet. -/
  | ready
  /-- The request found no cached server and no valid-name early exit, and is
  about to provision (its `createWorktree` call has not completed). -/
  | checked
  /-- The request produced its response. -/
  | finished (r : HandlerResult)
deriving DecidableEq, Repr

/-- Shared state of the process while two requests for the same valid non-"main"
workspace name are in flight: the `viteServers` cache, each request's phase, and
the combined trace of external operations issued so far. -/
structure TwoReqState where
  cache : List (String × Handle)
  r1 : ReqPhase
  r2 : ReqPhase
  trace : List ExtOp
deriving Repr

/-- One scheduling slice of a single request for a valid non-"main" workspace
name: from `ready` it performs the synchronous cache check of the middleware;
from `checked` it completes provisioning (its pre-checks observe the state the
environment snapshot describes, i.e. the state before any concurrent creation
finished) and installs the handle under the re-check of the cache, exactly as the
middleware does after its await points. -/
def reqSlice (env : Env) (name repoPath : String)
    (cache : List (String × Handle)) (phase : ReqPhase) :
    ReqPhase × List (String × Handle) × List ExtOp :=
  match phase with
  | .ready =>
    match lookupServer cache name with
    | some h => (.finished (.servedCached h), cache, [])
    | none => (.checked, cache, [])
  | .checked =>
    let r := createWorktree env name repoPath
    if successOf r.1 then
      let h : Handle := { root := pathJoin (getWorktreesDir repoPath) name,
                          base := "/" ++ name ++ "/" }
      (.finished (.served h),
        (if (lookupServer cache name).isSome then cache else cache ++ [(name, h)]), r.2)
    else (.finished (.errorResponse 500 r.1), cache, r.2)
  | .finished r => (.finished r, cache, [])

/-- Run one scheduling step: `false` advances the first request, `true` the
second. -/
def twoReqStep (env : Env) (name repoPath : String) (s : TwoReqState) (i : Bool) :
    TwoReqState :=
  if i then
    let (p, c, t) := reqSlice env name repoPath s.cache s.r2
    { cache := c, r1 := s.r1, r2 := p, trace := s.trace ++ t }
  else
    let (p, c, t) := reqSlice env name repoPath s.cache s.r1
    { cache := c, r1 := p, r2 := s.r2, trace := s.trace ++ t }

/-- Run a whole schedule of slices over the two-request state. -/
def twoReqRun (env : Env) (name repoPath : String) (sched : List Bool)
    (s : TwoReqState) : TwoReqState :=
  sched.foldl (twoReqStep env name repoPath) s

/-- Initial state: empty cache, both requests unstarted, empty trace. -/
def twoReqInit : TwoReqState := { cache := [], r1 := .ready, r2 := .ready, trace := [] }

/-- CheckoutRecord of the spec (section 3): a snapshot entry of the checkout
list, with an optional bound branch (absent for detached entries). -/
structure CheckoutRecord where
  path : String
  boundBranch : Option String
deriving DecidableEq, Repr

/-- Record formed from one porcelain entry as the spec describes it (section
4.2): blank entries and entries without a path form no record; a record's bound
branch is optional and absent for detached entries. -/
def checkoutRecordOfEntry (entry : String) : Option CheckoutRecord :=
  if trimChars entry = "" then none
  else
    let r := parseWorktreeEntry (splitNewline entry)
    if r.path = "" then none
    else some { path := r.path,
                boundBranch := if r.branch = "" then none else some r.branch }

/-- Listing of checkout records as the spec describes it (section 4.2): parse the
blank-line-delimited, key-prefixed-line output into records, tolerating entries
that lack a bound branch. -/
def listCheckoutsSpec (stdout : String) : List CheckoutRecord :=
  (splitDoubleNewline stdout).filterMap checkoutRecordOfEntry

/-- Definition following the words of the spec (section 4.2) for
`findCheckoutForBranch`: scan the records for a bound-branch match and return
that record's resolved path; if none matches, return the resolved primary
repository path exactly when the primary working copy is currently on the
branch; otherwise return none. -/
def findCheckoutForBranchSpec (env : Env) (branchName repoPath : String) :
    Option String :=
  let records := match env.worktreeListOut with
    | .ok s => listCheckoutsSpec s
    | .error _ => []
  match records.find? (fun r => r.boundBranch == some branchName) with
  | some r => some (env.resolve r.path)
  | none =>
    if (getCurrentBranch env repoPath).1 = some branchName then some (env.resolve repoPath)
    else none

/-- Concrete environment in which branch "feature1-branch" is checked out at its
derived target path. -/
def envFound : Env where
  resolve := fun s => s
  isInsideWorkTreeOut := .ok "true\n"
  headOut := .ok "main\n"
  worktreeListOut := .ok "worktree /repo-worktrees/feature1\nbranch refs/heads/feature1-branch"
  verifyBaseOut := .ok ""
  showRefOut := .error ""
  worktreeAddOut := .ok ""
  pnpmOut := .ok ("", "")
  existsSync := fun _ => false
  readdirSync := fun _ => []

/-- Concrete environment with no conflicting checkout and a clean disk, in which
every external command succeeds: provisioning runs to creation. -/
def envGood : Env where
  resolve := fun s => s
  isInsideWorkTreeOut := .ok "true\n"
  headOut := .ok "main\n"
  worktreeListOut := .ok "worktree /repo\nbranch refs/heads/main"
  verifyBaseOut := .ok ""
  showRefOut := .error ""
  worktreeAddOut := .ok ""
  pnpmOut := .ok ("", "")
  existsSync := fun _ => false
  readdirSync := fun _ => []

/-- Concrete environment like `envGood` except that the dependency installation
fails. -/
def envPnpmFails : Env where
  resolve := fun s => s
  isInsideWorkTreeOut := .ok "true\n"
  headOut := .ok "main\n"
  worktreeListOut := .ok "worktree /repo\nbranch refs/heads/main"
  verifyBaseOut := .ok ""
  showRefOut := .error ""
  worktreeAddOut := .ok ""
  pnpmOut := .error "pnpm exited with code 1"
  existsSync := fun _ => false
  readdirSync := fun _ => []

/-- Concrete environment in which the derived target path exists on disk as a
non-empty plain directory and no checkout conflicts exist. -/
def envDirNonEmpty : Env where
  resolve := fun s => s
  isInsideWorkTreeOut := .ok "true\n"
  headOut := .ok "main\n"
  worktreeListOut := .ok "worktree /repo\nbranch refs/heads/main"
  verifyBaseOut := .ok ""
  showRefOut := .error ""
  worktreeAddOut := .ok ""
  pnpmOut := .ok ("", "")
  existsSync := fun _ => true
  readdirSync := fun p => if p = "/repo-worktrees/feature1" then ["stale.txt"] else []

/-- Concrete environment in which the derived target path exists on disk as an
empty directory and no checkout conflicts exist. -/
def envDirEmpty : Env where
  resolve := fun s => s
  isInsideWorkTreeOut := .ok "true\n"
  headOut := .ok "main\n"
  worktreeListOut := .ok "worktree /repo\nbranch refs/heads/main"
  verifyBaseOut := .ok ""
  showRefOut := .error ""
  worktreeAddOut := .ok ""
  pnpmOut := .ok ("", "")
  existsSync := fun p => p = "/repo-worktrees/feature1"
  readdirSync := fun _ => []

/-- Concrete environment with a clean disk (the worktrees container directory
does not exist yet) in which the base branch does not resolve to a valid
commit. -/
def envBadBase : Env where
  resolve := fun s => s
  isInsideWorkTreeOut := .ok "true\n"
  headOut := .ok "main\n"
  worktreeListOut := .ok "worktree /repo\nbranch refs/heads/main"
  verifyBaseOut := .error "fatal: Needed a single revision"
  showRefOut := .error ""
  worktreeAddOut := .ok ""
  pnpmOut := .ok ("", "")
  existsSync := fun _ => false
  readdirSync := fun _ => []

/-- Concrete environment whose checkout listing contains a single detached entry
(a path with no bound branch). -/
def envDetached : Env where
  resolve := fun s => s
  isInsideWorkTreeOut := .ok "true\n"
  headOut := .ok "main\n"
  worktreeListOut := .ok "worktree /x"
  verifyBaseOut := .ok ""
  showRefOut := .error ""
  worktreeAddOut := .ok ""
  pnpmOut := .ok ("", "")
  existsSync := fun _ => false
  readdirSync := fun _ => []

/-- Concrete environment whose checkout listing succeeds without any entry for
branch "feature1-branch" while the primary working copy is itself on
"feature1-branch". -/
def envPrimaryOnBranch : Env where
  resolve := fun s => s
  isInsideWorkTreeOut := .ok "true\n"
  headOut := .ok "feature1-branch\n"
  worktreeListOut := .ok "worktree /repo\nbranch refs/heads/main"
  verifyBaseOut := .ok ""
  showRefOut := .error ""
  worktreeAddOut := .ok ""
  pnpmOut := .ok ("", "")
  existsSync := fun _ => false
  readdirSync := fun _ => []

/-- Every operation `getCurrentBranch` performs is one of its two rev-parse
queries. -/
theorem getCurrentBranch_trace (env : Env) (repoPath : String) (op : ExtOp)
    (h : op ∈ (getCurrentBranch env repoPath).2) :
    op = .revParseIsInsideWorkTree repoPath ∨ op = .revParseHead repoPath := by
  unfold getCurrentBranch at h
  split at h <;> try split at h
  all_goals try split at h
  all_goals simp_all

/-- Every operation `getWorktreePathForBranch` performs is the worktree listing
or one of the rev-parse queries. -/
theorem getWorktreePathForBranch_trace (env : Env) (branchName repoPath : String) (op : ExtOp)
    (h : op ∈ (getWorktreePathForBranch env branchName repoPath).2) :
    op = .worktreeList repoPath ∨ op = .revParseIsInsideWorkTree repoPath ∨
      op = .revParseHead repoPath := by
  unfold getWorktreePathForBranch at h
  split at h
  · simp only [List.mem_cons] at h
    rcases h with h | h
    · tauto
    · rcases getCurrentBranch_trace env repoPath op h with h' | h' <;> tauto
  · simp only [List.mem_singleton] at h
    tauto

/-- The branch-ownership lookup neither creates a checkout nor mutates anything. -/
theorem lookupOp_not_creation (env : Env) (branchName repoPath : String) (op : ExtOp)
    (h : op ∈ (getWorktreePathForBranch env branchName repoPath).2) :
    isCreationOp op = false ∧ isMutatingOp op = false := by
  rcases getWorktreePathForBranch_trace env branchName repoPath op h with h' | h' | h' <;>
    subst h' <;> exact ⟨rfl, rfl⟩

/-- C1.  For every valid workspace name, the provisioning attempt first looks up
the checkout bound to the derived branch name: if a checkout for that branch is
found and its resolved path equals the derived target checkout path, the outcome
is success and no creation command is issued; if it is found at a different
resolved path, the outcome is failure with reason BranchCheckedOutElsewhere and
no creation command is issued. -/
theorem branchOwnershipCheck (env : Env) (name repoPath existingPath : String)
    (_hv : isValidWorktreeName name = true)
    (hf : (getWorktreePathForBranch env (name ++ "-branch") repoPath).1 = some existingPath) :
    (env.resolve existingPath = env.resolve (pathJoin (getWorktreesDir repoPath) name) →
      successOf (createWorktree env name repoPath).1 = true) ∧
    (env.resolve existingPath ≠ env.resolve (pathJoin (getWorktreesDir repoPath) name) →
      (createWorktree env name repoPath).1 =
        CreateResult.branchCheckedOutElsewhere (name ++ "-branch") existingPath) ∧
    (∀ op ∈ (createWorktree env name repoPath).2, isCreationOp op = false) := by
  rcases hpair : getWorktreePathForBranch env (name ++ "-branch") repoPath with ⟨res, tr⟩
  rw [hpair] at hf
  simp only at hf
  subst hf
  have hcw : createWorktree env name repoPath =
      (if env.resolve existingPath = env.resolve (pathJoin (getWorktreesDir repoPath) name)
        then CreateResult.alreadyExists name (name ++ "-branch")
          (pathJoin (getWorktreesDir repoPath) name)
        else CreateResult.branchCheckedOutElsewhere (name ++ "-branch") existingPath, tr) := by
    simp only [createWorktree]
    rw [hpair]
    split <;> simp_all
    split <;> rfl
  refine ⟨?_, ?_, ?_⟩
  · intro he
    rw [hcw]
    simp [he, successOf]
  · intro he
    rw [hcw]
    simp [he]
  · intro op hop
    rw [hcw] at hop
    have : op ∈ (getWorktreePathForBranch env (name ++ "-branch") repoPath).2 := by
      rw [hpair]
      simpa using hop
    exact (lookupOp_not_creation env (name ++ "-branch") repoPath op this).1

/-- Witness for `branchOwnershipCheck`: in `envFound` the derived branch
"feature1-branch" is checked out at "/repo-worktrees/feature1", which is the
derived target path, so the attempt reports success without creating. -/
theorem branchOwnershipCheck_inst :
    (envFound.resolve "/repo-worktrees/feature1" =
        envFound.resolve (pathJoin (getWorktreesDir "/repo") "feature1") →
      successOf (createWorktree envFound "feature1" "/repo").1 = true) ∧
    (envFound.resolve "/repo-worktrees/feature1" ≠
        envFound.resolve (pathJoin (getWorktreesDir "/repo") "feature1") →
      (createWorktree envFound "feature1" "/repo").1 =
        CreateResult.branchCheckedOutElsewhere ("feature1" ++ "-branch")
          "/repo-worktrees/feature1") ∧
    (∀ op ∈ (createWorktree envFound "feature1" "/repo").2, isCreationOp op = false) :=
  branchOwnershipCheck envFound "feature1" "/repo" "/repo-worktrees/feature1"
    (by decide) (by decide)

/-- Appending a string on the right is cancellable. -/
theorem strAppend_cancel_right (a b c : String) (h : a ++ c = b ++ c) : a = b := by
  cases a with | mk da =>
  cases b with | mk db =>
  cases c with | mk dc =>
  have hd : da ++ dc = db ++ dc := congrArg String.data h
  exact congrArg String.mk (List.append_cancel_right hd)

/-- Appending a string on the left is cancellable. -/
theorem strAppend_cancel_left (a b c : String) (h : a ++ b = a ++ c) : b = c := by
  cases a with | mk da =>
  cases b with | mk db =>
  cases c with | mk dc =>
  have hd : da ++ db = da ++ dc := congrArg String.data h
  exact congrArg String.mk (List.append_cancel_left hd)

/-- C5.  For any two distinct workspace names that both match the allowed
character set, the derived branch names (name + "-branch") are distinct and the
derived checkout paths (worktrees container directory joined with the name) are
distinct, and the derivation is deterministic (equal names always derive equal
branch and path). -/
theorem deriveIdentityInjective (repoPath n1 n2 : String)
    (_h1 : isValidWorktreeName n1 = true) (_h2 : isValidWorktreeName n2 = true)
    (hne : n1 ≠ n2) :
    n1 ++ "-branch" ≠ n2 ++ "-branch" ∧
    pathJoin (getWorktreesDir repoPath) n1 ≠ pathJoin (getWorktreesDir repoPath) n2 ∧
    (∀ m1 m2 : String, m1 = m2 →
      m1 ++ "-branch" = m2 ++ "-branch" ∧
      pathJoin (getWorktreesDir repoPath) m1 = pathJoin (getWorktreesDir repoPath) m2) := by
  refine ⟨fun h => hne (strAppend_cancel_right n1 n2 "-branch" h), fun h => ?_,
    fun m1 m2 hm => by rw [hm]; exact ⟨rfl, rfl⟩⟩
  unfold pathJoin at h
  exact hne (strAppend_cancel_left (getWorktreesDir repoPath ++ "/") n1 n2 h)

/-- Witness for `deriveIdentityInjective` at the names "feature1" and
"feature2". -/
theorem deriveIdentityInjective_inst :
    "feature1" ++ "-branch" ≠ "feature2" ++ "-branch" ∧
    pathJoin (getWorktreesDir "/repo") "feature1" ≠ pathJoin (getWorktreesDir "/repo") "feature2" ∧
    (∀ m1 m2 : String, m1 = m2 →
      m1 ++ "-branch" = m2 ++ "-branch" ∧
      pathJoin (getWorktreesDir "/repo") m1 = pathJoin (getWorktreesDir "/repo") m2) :=
  deriveIdentityInjective "/repo" "feature1" "feature2" (by decide) (by decide) (by decide)

/-- C6.  For every valid workspace name whose derived branch is not checked out
anywhere and whose target path is not an existing checkout, if the target
checkout path exists on disk as a plain directory and is non-empty, the
provisioning outcome is failure with reason NonEmptyDirectory and no creation
command is issued. -/
theorem nonEmptyDirectoryGuard (env : Env) (name repoPath stdout : String)
    (hb : (getWorktreePathForBranch env (name ++ "-branch") repoPath).1 = none)
    (hl : env.worktreeListOut = .ok stdout)
    (ho : findOccupierBranch env.resolve (pathJoin (getWorktreesDir repoPath) name)
      (name ++ "-branch") (splitDoubleNewline stdout) = none)
    (he : env.existsSync (pathJoin (getWorktreesDir repoPath) name) = true)
    (hn : env.readdirSync (pathJoin (getWorktreesDir repoPath) name) ≠ []) :
    (createWorktree env name repoPath).1 =
      CreateResult.nonEmptyDirectory (pathJoin (getWorktreesDir repoPath) name) ∧
    (∀ op ∈ (createWorktree env name repoPath).2, isCreationOp op = false) := by
  rcases hpair : getWorktreePathForBranch env (name ++ "-branch") repoPath with ⟨res, tr⟩
  rw [hpair] at hb
  simp only at hb
  subst hb
  have hlen : (env.readdirSync (pathJoin (getWorktreesDir repoPath) name)).length > 0 :=
    List.length_pos.mpr hn
  have hcw : createWorktree env name repoPath =
      (CreateResult.nonEmptyDirectory (pathJoin (getWorktreesDir repoPath) name),
        tr ++ [.worktreeList repoPath] ++ [.fsExists (pathJoin (getWorktreesDir repoPath) name)]
          ++ [.fsReaddir (pathJoin (getWorktreesDir repoPath) name)]) := by
    simp only [createWorktree]
    rw [hpair, hl]
    simp [ho, he, hlen]
  constructor
  · rw [hcw]
  · intro op hop
    rw [hcw] at hop
    simp only [List.mem_append, List.mem_singleton] at hop
    rcases hop with ((hop | hop) | hop) | hop
    · exact (lookupOp_not_creation env (name ++ "-branch") repoPath op
        (by rw [hpair]; exact hop)).1
    · subst hop; rfl
    · subst hop; rfl
    · subst hop; rfl

/-- Witness for `nonEmptyDirectoryGuard`: in `envDirNonEmpty` the derived target
path holds a non-empty plain directory, so provisioning fails without creating. -/
theorem nonEmptyDirectoryGuard_inst :
    (createWorktree envDirNonEmpty "feature1" "/repo").1 =
      CreateResult.nonEmptyDirectory (pathJoin (getWorktreesDir "/repo") "feature1") ∧
    (∀ op ∈ (createWorktree envDirNonEmpty "feature1" "/repo").2, isCreationOp op = false) :=
  nonEmptyDirectoryGuard envDirNonEmpty "feature1" "/repo"
    "worktree /repo\nbranch refs/heads/main"
    (by decide) rfl (by decide) (by decide) (by decide)

/-- The tail of the provisioning attempt never reports NonEmptyDirectory: that
reason arises only from the directory-occupancy check before it. -/
theorem afterDirCheck_not_nonEmpty (env : Env) (name repoPath target branch : String)
    (t : List ExtOp) (p : String) :
    (createWorktreeAfterDirCheck env name repoPath target branch t).1 ≠
      CreateResult.nonEmptyDirectory p := by
  unfold createWorktreeAfterDirCheck
  split <;> try split
  all_goals try split
  all_goals simp_all

/-- The tail of the provisioning attempt always performs the base-branch
validity check. -/
theorem afterDirCheck_verifies (env : Env) (name repoPath target branch : String)
    (t : List ExtOp) :
    ExtOp.verifyCommit ACTUAL_MAIN_BRANCH repoPath ∈
      (createWorktreeAfterDirCheck env name repoPath target branch t).2 := by
  unfold createWorktreeAfterDirCheck
  split <;> try split
  all_goals try split
  all_goals simp

/-- When the base-branch check passes, the tail of the provisioning attempt
issues a checkout-creation command. -/
theorem afterDirCheck_creates (env : Env) (name repoPath target branch d : String)
    (t : List ExtOp) (hv : env.verifyBaseOut = Except.ok d) :
    ∃ op ∈ (createWorktreeAfterDirCheck env name repoPath target branch t).2,
      isCreationOp op = true := by
  unfold createWorktreeAfterDirCheck
  rcases hs : env.showRefOut with e2 | o2 <;> rcases ha : env.worktreeAddOut with e | o <;>
    simp only [hv, hs, ha]
  · exact ⟨ExtOp.worktreeAddNewBranch branch target ACTUAL_MAIN_BRANCH repoPath,
      by split <;> simp, rfl⟩
  · exact ⟨ExtOp.worktreeAddNewBranch branch target ACTUAL_MAIN_BRANCH repoPath,
      by split <;> simp, rfl⟩
  · exact ⟨ExtOp.worktreeAddExistingBranch target branch repoPath,
      by split <;> simp, rfl⟩
  · exact ⟨ExtOp.worktreeAddExistingBranch target branch repoPath,
      by split <;> simp, rfl⟩

/-- C10.  If the target checkout path exists on disk as an empty directory, and
the preceding branch-ownership and path-ownership checks found no conflict,
provisioning does not fail with NonEmptyDirectory: it proceeds to the
base-branch validity check and, if that passes, to checkout creation. -/
theorem emptyDirectoryProceeds (env : Env) (name repoPath stdout : String)
    (hb : (getWorktreePathForBranch env (name ++ "-branch") repoPath).1 = none)
    (hl : env.worktreeListOut = .ok stdout)
    (ho : findOccupierBranch env.resolve (pathJoin (getWorktreesDir repoPath) name)
      (name ++ "-branch") (splitDoubleNewline stdout) = none)
    (he : env.existsSync (pathJoin (getWorktreesDir repoPath) name) = true)
    (hn : env.readdirSync (pathJoin (getWorktreesDir repoPath) name) = []) :
    (∀ p, (createWorktree env name repoPath).1 ≠ CreateResult.nonEmptyDirectory p) ∧
    ExtOp.verifyCommit ACTUAL_MAIN_BRANCH repoPath ∈ (createWorktree env name repoPath).2 ∧
    (∀ d, env.verifyBaseOut = Except.ok d →
      ∃ op ∈ (createWorktree env name repoPath).2, isCreationOp op = true) := by
  rcases hpair : getWorktreePathForBranch env (name ++ "-branch") repoPath with ⟨res, tr⟩
  rw [hpair] at hb
  simp only at hb
  subst hb
  have hcw : createWorktree env name repoPath =
      createWorktreeAfterDirCheck env name repoPath (pathJoin (getWorktreesDir repoPath) name)
        (name ++ "-branch")
        (tr ++ [.worktreeList repoPath] ++ [.fsExists (pathJoin (getWorktreesDir repoPath) name)]
          ++ [.fsReaddir (pathJoin (getWorktreesDir repoPath) name)]) := by
    simp only [createWorktree]
    rw [hpair, hl]
    simp [ho, he, hn]
  rw [hcw]
  refine ⟨fun p => afterDirCheck_not_nonEmpty env name repoPath _ _ _ p,
    afterDirCheck_verifies env name repoPath _ _ _,
    fun d hd => afterDirCheck_creates env name repoPath _ _ d _ hd⟩

/-- Witness for `emptyDirectoryProceeds`: in `envDirEmpty` the derived target
path is an existing empty directory and provisioning goes on to verify the base
branch and create the checkout. -/
theorem emptyDirectoryProceeds_inst :
    (∀ p, (createWorktree envDirEmpty "feature1" "/repo").1 ≠ CreateResult.nonEmptyDirectory p) ∧
    ExtOp.verifyCommit ACTUAL_MAIN_BRANCH "/repo" ∈ (createWorktree envDirEmpty "feature1" "/repo").2 ∧
    (∀ d, envDirEmpty.verifyBaseOut = Except.ok d →
      ∃ op ∈ (createWorktree envDirEmpty "feature1" "/repo").2, isCreationOp op = true) :=
  emptyDirectoryProceeds envDirEmpty "feature1" "/repo"
    "worktree /repo\nbranch refs/heads/main"
    (by decide) rfl (by decide) (by decide) (by decide)

/-- Conflict failures of the provisioning state machine: the four reasons that
the pre-creation checks can report. -/
def isConflictFailure : CreateResult → Bool
  | .branchCheckedOutElsewhere _ _ => true
  | .pathOccupiedByOtherBranch _ _ _ => true
  | .nonEmptyDirectory _ => true
  | .invalidBaseBranch _ => true
  | _ => false

/-- Conflict failures reported before the worktrees container directory is
ensured: every conflict except the base-branch one. -/
def isPreMkdirConflict : CreateResult → Bool
  | .branchCheckedOutElsewhere _ _ => true
  | .pathOccupiedByOtherBranch _ _ _ => true
  | .nonEmptyDirectory _ => true
  | _ => false

/-- A conflict failure coming out of the tail of the attempt can only be the
base-branch failure, and its trace extends the prefix only by the container
directory probe, possibly its creation, and the verify command. -/
theorem afterDirCheck_conflict_shape (env : Env) (name repoPath target branch : String)
    (t : List ExtOp) (res : CreateResult) (tr : List ExtOp)
    (hc : createWorktreeAfterDirCheck env name repoPath target branch t = (res, tr))
    (hcf : isConflictFailure res = true) :
    ∃ d, env.verifyBaseOut = Except.error d ∧ res = CreateResult.invalidBaseBranch d ∧
      ∀ op ∈ tr, op ∈ t ∨ op = ExtOp.fsExists (getWorktreesDir repoPath) ∨
        op = ExtOp.mkdirRecursive (getWorktreesDir repoPath) ∨
        op = ExtOp.verifyCommit ACTUAL_MAIN_BRANCH repoPath := by
  unfold createWorktreeAfterDirCheck at hc
  split at hc
  · injection hc with h1 h2
    subst h1
    subst h2
    refine ⟨_, by assumption, rfl, ?_⟩
    intro op hop
    split at hop <;> simp only [List.mem_append, List.mem_singleton, List.mem_cons,
      List.not_mem_nil, or_false] at hop <;> tauto
  · split at hc <;> simp only at hc <;> split at hc <;>
      injection hc with h1 h2 <;> subst h1 <;> simp [isConflictFailure] at hcf

/-- C7 (amended).  For every provisioning attempt that ends in a conflict
failure, no checkout-creation command and no dependency installation has been
performed; for the three conflicts detected before the container directory is
ensured (BranchCheckedOutElsewhere, PathOccupiedByOtherBranch,
NonEmptyDirectory) no mutating external operation at all has been performed; and
for InvalidBaseBranch the only possible prior mutating operation is the creation
of the (empty) worktrees container directory. -/
theorem conflictBeforeMutation (env : Env) (name repoPath : String)
    (h : isConflictFailure (createWorktree env name repoPath).1 = true) :
    (∀ op ∈ (createWorktree env name repoPath).2, isCreationOp op = false) ∧
    (isPreMkdirConflict (createWorktree env name repoPath).1 = true →
      ∀ op ∈ (createWorktree env name repoPath).2, isMutatingOp op = false) ∧
    (∀ d, (createWorktree env name repoPath).1 = CreateResult.invalidBaseBranch d →
      ∀ op ∈ (createWorktree env name repoPath).2, isMutatingOp op = true →
        op = ExtOp.mkdirRecursive (getWorktreesDir repoPath)) := by
  rcases hc : createWorktree env name repoPath with ⟨res, tr⟩
  rw [hc] at h
  simp only at h ⊢
  simp only [createWorktree] at hc
  split at hc
  · -- branch-ownership lookup found a path
    split at hc <;> injection hc with h1 h2 <;> subst h1 <;> subst h2
    · simp [isConflictFailure] at h
    · refine ⟨?_, ?_, ?_⟩
      · intro op hop
        exact (lookupOp_not_creation env (name ++ "-branch") repoPath op hop).1
      · intro _ op hop
        exact (lookupOp_not_creation env (name ++ "-branch") repoPath op hop).2
      · intro d hd
        simp at hd
  · -- lookup found nothing
    split at hc
    · -- worktree list rejected: caughtError
      injection hc with h1 h2
      subst h1
      simp [isConflictFailure] at h
    · try simp only at hc
      split at hc
      · -- path occupied by another branch
        injection hc with h1 h2
        subst h1
        subst h2
        refine ⟨?_, ?_, ?_⟩
        · intro op hop
          rcases List.mem_append.mp hop with hm | hm
          · exact (lookupOp_not_creation env (name ++ "-branch") repoPath op hm).1
          · simp only [List.mem_singleton] at hm
            subst hm
            rfl
        · intro _ op hop
          rcases List.mem_append.mp hop with hm | hm
          · exact (lookupOp_not_creation env (name ++ "-branch") repoPath op hm).2
          · simp only [List.mem_singleton] at hm
            subst hm
            rfl
        · intro d hd
          simp at hd
      · -- no path conflict: directory check
        split at hc
        · try simp only at hc
          split at hc
          · -- non-empty directory
            injection hc with h1 h2
            subst h1
            subst h2
            refine ⟨?_, ?_, ?_⟩
            · intro op hop
              simp only [List.mem_append, List.mem_singleton] at hop
              rcases hop with ((hm | hm) | hm) | hm
              · exact (lookupOp_not_creation env (name ++ "-branch") repoPath op hm).1
              all_goals subst hm
              all_goals rfl
            · intro _ op hop
              simp only [List.mem_append, List.mem_singleton] at hop
              rcases hop with ((hm | hm) | hm) | hm
              · exact (lookupOp_not_creation env (name ++ "-branch") repoPath op hm).2
              all_goals subst hm
              all_goals rfl
            · intro d hd
              simp at hd
          · -- empty directory: tail of the attempt
            obtain ⟨d, hv, hres, htr⟩ :=
              afterDirCheck_conflict_shape env name repoPath _ _ _ res tr hc h
            subst hres
            refine ⟨?_, ?_, ?_⟩
            · intro op hop
              rcases htr op hop with hm | hm | hm | hm
              · simp only [List.mem_append, List.mem_singleton] at hm
                rcases hm with ((hm' | hm') | hm') | hm'
                · exact (lookupOp_not_creation env (name ++ "-branch") repoPath op hm').1
                all_goals subst hm'
                all_goals rfl
              all_goals subst hm
              all_goals rfl
            · intro hpre
              simp [isPreMkdirConflict] at hpre
            · intro d' hd op hop hmut
              injection hd with hd'
              rcases htr op hop with hm | hm | hm | hm
              · simp only [List.mem_append, List.mem_singleton] at hm
                rcases hm with ((hm' | hm') | hm') | hm'
                · rw [(lookupOp_not_creation env (name ++ "-branch") repoPath op hm').2] at hmut
                  exact absurd hmut (by simp)
                all_goals subst hm'
                all_goals simp [isMutatingOp] at hmut
              · subst hm
                simp [isMutatingOp] at hmut
              · subst hm
                rfl
              · subst hm
                simp [isMutatingOp] at hmut
        · -- target path not on disk: tail of the attempt
          obtain ⟨d, hv, hres, htr⟩ :=
            afterDirCheck_conflict_shape env name repoPath _ _ _ res tr hc h
          subst hres
          refine ⟨?_, ?_, ?_⟩
          · intro op hop
            rcases htr op hop with hm | hm | hm | hm
            · simp only [List.mem_append, List.mem_singleton] at hm
              rcases hm with (hm' | hm') | hm'
              · exact (lookupOp_not_creation env (name ++ "-branch") repoPath op hm').1
              all_goals subst hm'
              all_goals rfl
            all_goals subst hm
            all_goals rfl
          · intro hpre
            simp [isPreMkdirConflict] at hpre
          · intro d' hd op hop hmut
            injection hd with hd'
            rcases htr op hop with hm | hm | hm | hm
            · simp only [List.mem_append, List.mem_singleton] at hm
              rcases hm with (hm' | hm') | hm'
              · rw [(lookupOp_not_creation env (name ++ "-branch") repoPath op hm').2] at hmut
                exact absurd hmut (by simp)
              all_goals subst hm'
              all_goals simp [isMutatingOp] at hmut
            · subst hm
              simp [isMutatingOp] at hmut
            · subst hm
              rfl
            · subst hm
              simp [isMutatingOp] at hmut

/-- Counterexample to C7 as stated: in `envBadBase` the attempt fails with the
InvalidBaseBranch conflict, yet a mutating external operation (creating the
worktrees container directory) has already been performed before the failure is
reported. -/
theorem conflictBeforeMutation_cex :
    isConflictFailure (createWorktree envBadBase "feature1" "/repo").1 = true ∧
    (createWorktree envBadBase "feature1" "/repo").1 =
      CreateResult.invalidBaseBranch "fatal: Needed a single revision" ∧
    ExtOp.mkdirRecursive "/repo-worktrees" ∈ (createWorktree envBadBase "feature1" "/repo").2 ∧
    isMutatingOp (ExtOp.mkdirRecursive "/repo-worktrees") = true :=
  ⟨by decide, by decide, by decide, by decide⟩

/-- Witness for `conflictBeforeMutation` at the concrete environment
`envBadBase`. -/
theorem conflictBeforeMutation_inst :
    (∀ op ∈ (createWorktree envBadBase "feature1" "/repo").2, isCreationOp op = false) ∧
    (isPreMkdirConflict (createWorktree envBadBase "feature1" "/repo").1 = true →
      ∀ op ∈ (createWorktree envBadBase "feature1" "/repo").2, isMutatingOp op = false) ∧
    (∀ d, (createWorktree envBadBase "feature1" "/repo").1 = CreateResult.invalidBaseBranch d →
      ∀ op ∈ (createWorktree envBadBase "feature1" "/repo").2, isMutatingOp op = true →
        op = ExtOp.mkdirRecursive (getWorktreesDir "/repo")) :=
  conflictBeforeMutation envBadBase "feature1" "/repo" (by decide)

/-- With a successful add command, a trace containing a creation operation means
the attempt ran to the created outcome. -/
theorem afterDirCheck_created (env : Env) (name repoPath target branch out : String)
    (t : List ExtOp) (res : CreateResult) (tr : List ExtOp)
    (hadd : env.worktreeAddOut = Except.ok out)
    (ht : ∀ op ∈ t, isCreationOp op = false)
    (hc : createWorktreeAfterDirCheck env name repoPath target branch t = (res, tr))
    (hcrea : ∃ op ∈ tr, isCreationOp op = true) :
    res = CreateResult.created name branch target out := by
  unfold createWorktreeAfterDirCheck at hc
  split at hc
  · -- base-branch check failed: the trace holds no creation op, contradiction
    injection hc with h1 h2
    subst h1
    subst h2
    obtain ⟨op, hop, hcr⟩ := hcrea
    have hfalse : isCreationOp op = false := by
      rcases List.mem_append.mp hop with hm | hm
      · split at hm
        · rcases List.mem_append.mp hm with hm' | hm'
          · exact ht op hm'
          · simp only [List.mem_singleton] at hm'
            subst hm'
            rfl
        · rcases List.mem_append.mp hm with hm' | hm'
          · rcases List.mem_append.mp hm' with hm2 | hm2
            · exact ht op hm2
            · simp only [List.mem_singleton] at hm2
              subst hm2
              rfl
          · simp only [List.mem_singleton] at hm'
            subst hm'
            rfl
      · simp only [List.mem_singleton] at hm
        subst hm
        rfl
    rw [hfalse] at hcr
    exact absurd hcr (by simp)
  · -- base-branch check passed: with a successful add command the result is created
    rw [hadd] at hc
    simp only at hc
    injection hc with h1 h2
    exact h1.symm

/-- C8.  For every provisioning attempt in which the checkout-creation command
succeeds, a subsequent failure of the dependency-installation step does not
change the outcome: the attempt still returns success, and the outcome is
entirely independent of the installation result. -/
theorem installFailureKeepsSuccess (env : Env) (name repoPath out e : String)
    (hadd : env.worktreeAddOut = Except.ok out)
    (_hpn : env.pnpmOut = Except.error e)
    (hcrea : ∃ op ∈ (createWorktree env name repoPath).2, isCreationOp op = true) :
    (createWorktree env name repoPath).1 =
      CreateResult.created name (name ++ "-branch") (pathJoin (getWorktreesDir repoPath) name) out ∧
    successOf (createWorktree env name repoPath).1 = true ∧
    (∀ po, createWorktree { env with pnpmOut := po } name repoPath =
      createWorktree env name repoPath) := by
  have hmain : (createWorktree env name repoPath).1 =
      CreateResult.created name (name ++ "-branch") (pathJoin (getWorktreesDir repoPath) name) out := by
    rcases hc : createWorktree env name repoPath with ⟨res, tr⟩
    rw [hc] at hcrea
    simp only at hcrea ⊢
    simp only [createWorktree] at hc
    split at hc
    · split at hc <;> injection hc with h1 h2 <;> subst h1 <;> subst h2 <;>
      · obtain ⟨op, hop, hcr⟩ := hcrea
        rw [(lookupOp_not_creation env (name ++ "-branch") repoPath op hop).1] at hcr
        exact absurd hcr (by simp)
    · split at hc
      · injection hc with h1 h2
        subst h1
        subst h2
        obtain ⟨op, hop, hcr⟩ := hcrea
        rcases List.mem_append.mp hop with hm | hm
        · rw [(lookupOp_not_creation env (name ++ "-branch") repoPath op hm).1] at hcr
          exact absurd hcr (by simp)
        · simp only [List.mem_singleton] at hm
          subst hm
          simp [isCreationOp] at hcr
      · try simp only at hc
        split at hc
        · injection hc with h1 h2
          subst h1
          subst h2
          obtain ⟨op, hop, hcr⟩ := hcrea
          rcases List.mem_append.mp hop with hm | hm
          · rw [(lookupOp_not_creation env (name ++ "-branch") repoPath op hm).1] at hcr
            exact absurd hcr (by simp)
          · simp only [List.mem_singleton] at hm
            subst hm
            simp [isCreationOp] at hcr
        · split at hc
          · try simp only at hc
            split at hc
            · injection hc with h1 h2
              subst h1
              subst h2
              obtain ⟨op, hop, hcr⟩ := hcrea
              simp only [List.mem_append, List.mem_singleton] at hop
              rcases hop with ((hm | hm) | hm) | hm
              · rw [(lookupOp_not_creation env (name ++ "-branch") repoPath op hm).1] at hcr
                exact absurd hcr (by simp)
              all_goals subst hm
              all_goals simp [isCreationOp] at hcr
            · refine afterDirCheck_created env name repoPath _ _ out _ res tr hadd ?_ hc hcrea
              intro op hop
              simp only [List.mem_append, List.mem_singleton] at hop
              rcases hop with ((hm | hm) | hm) | hm
              · exact (lookupOp_not_creation env (name ++ "-branch") repoPath op hm).1
              all_goals subst hm
              all_goals rfl
          · refine afterDirCheck_created env name repoPath _ _ out _ res tr hadd ?_ hc hcrea
            intro op hop
            simp only [List.mem_append, List.mem_singleton] at hop
            rcases hop with (hm | hm) | hm
            · exact (lookupOp_not_creation env (name ++ "-branch") repoPath op hm).1
            all_goals subst hm
            all_goals rfl
  refine ⟨hmain, by rw [hmain]; rfl, fun po => rfl⟩

/-- Witness for `installFailureKeepsSuccess`: in `envPnpmFails` the add command
succeeds, the dependency installation fails, and the outcome is still the
created success. -/
theorem installFailureKeepsSuccess_inst :
    (createWorktree envPnpmFails "feature1" "/repo").1 =
      CreateResult.created "feature1" ("feature1" ++ "-branch")
        (pathJoin (getWorktreesDir "/repo") "feature1") "" ∧
    successOf (createWorktree envPnpmFails "feature1" "/repo").1 = true ∧
    (∀ po, createWorktree { envPnpmFails with pnpmOut := po } "feature1" "/repo" =
      createWorktree envPnpmFails "feature1" "/repo") :=
  installFailureKeepsSuccess envPnpmFails "feature1" "/repo" "" "pnpm exited with code 1"
    rfl rfl (by decide)

/-- Scanning the entries for a nonempty branch, as the source loop does, agrees
with finding the first spec record whose bound branch matches and resolving its
path. -/
theorem scan_eq_find (resolve : String → String) (b : String) (hb : b ≠ "")
    (entries : List String) :
    scanEntriesForBranch resolve b entries =
      ((entries.filterMap checkoutRecordOfEntry).find?
        (fun r => r.boundBranch == some b)).map (fun r => resolve r.path) := by
  induction entries with
  | nil => rfl
  | cons e rest ih =>
    by_cases ht : trimChars e = ""
    · simp only [scanEntriesForBranch, checkoutRecordOfEntry, ht, if_true, List.filterMap_cons]
      simpa using ih
    · by_cases hp : (parseWorktreeEntry (splitNewline e)).path = ""
      · simp only [scanEntriesForBranch, checkoutRecordOfEntry, ht, if_false, List.filterMap_cons]
        simp [ht, hp, ih]
      · by_cases hbr : (parseWorktreeEntry (splitNewline e)).branch = b
        · have hbb : (if (parseWorktreeEntry (splitNewline e)).branch = "" then (none : Option String)
              else some (parseWorktreeEntry (splitNewline e)).branch) = some b := by
            rw [hbr]
            simp [hb]
          simp only [scanEntriesForBranch, checkoutRecordOfEntry, ht, hp, hbr, hbb,
            if_false, List.filterMap_cons]
          rw [List.find?_cons_of_pos]
          · simp [hp]
          · simp [hb]
        · have hbb : ((if (parseWorktreeEntry (splitNewline e)).branch = "" then (none : Option String)
              else some (parseWorktreeEntry (splitNewline e)).branch) == some b) = false := by
            split
            · rfl
            · simp [hbr]
          simp [scanEntriesForBranch, checkoutRecordOfEntry, ht, hp, hbr, hbb, ih]

/-- Definition following the words of the amended claim for the branch lookup:
when the listing command succeeds, the result is the record scan alone — the
resolved path of the first record with a bound-branch match, and none when no
record matches, with the primary working copy not consulted; only when the
listing command fails does the lookup fall back to returning the resolved
primary repository path exactly when the primary working copy's current branch
equals the branch name, and otherwise none. -/
def findCheckoutForBranchAmended (env : Env) (branchName repoPath : String) :
    Option String :=
  match env.worktreeListOut with
  | .ok s =>
    ((listCheckoutsSpec s).find? (fun r => r.boundBranch == some branchName)).map
      (fun r => env.resolve r.path)
  | .error _ =>
    if (getCurrentBranch env repoPath).1 = some branchName then some (env.resolve repoPath)
    else none

/-- C3 (amended).  For every nonempty branch name: when the checkout listing
succeeds, the lookup returns the resolved path of the first parsed record with a
bound-branch match and none when no record matches (the primary working copy is
not consulted); only when the listing command fails does it return the resolved
primary repository path exactly when the primary working copy's current branch
equals the branch name (where a detached/unborn state or a non-repository yields
no current branch), and otherwise none. -/
theorem findCheckoutDecomposition (env : Env) (branchName repoPath : String)
    (hb : branchName ≠ "") :
    (getWorktreePathForBranch env branchName repoPath).1 =
      findCheckoutForBranchAmended env branchName repoPath := by
  unfold getWorktreePathForBranch findCheckoutForBranchAmended
  rcases hw : env.worktreeListOut with e | s <;> simp only [listCheckoutsSpec]
  exact scan_eq_find env.resolve branchName hb (splitDoubleNewline s)

/-- Counterexample to C3 as stated, at two explicit inputs.  In
`envPrimaryOnBranch` the listing succeeds with no record bound to
"feature1-branch" while the primary working copy is on that branch: the claim
(formalised by `findCheckoutForBranchSpec`, which follows the spec's words)
predicts the resolved primary path, but the code returns none — the
current-branch fallback runs only when the listing command fails.  In
`envDetached` the listing holds one detached entry (a path with no bound
branch): for the empty branch name no record has a bound-branch match and the
primary working copy is not on a branch named by the empty string, yet the code
returns the detached entry's path. -/
theorem findCheckoutDecomposition_cex :
    (getWorktreePathForBranch envPrimaryOnBranch "feature1-branch" "/repo").1 = none ∧
    findCheckoutForBranchSpec envPrimaryOnBranch "feature1-branch" "/repo" = some "/repo" ∧
    (getWorktreePathForBranch envDetached "" "/repo").1 = some "/x" ∧
    findCheckoutForBranchSpec envDetached "" "/repo" = none :=
  ⟨by decide, by decide, by decide, by decide⟩

/-- Witness for `findCheckoutDecomposition` at the concrete environment
`envFound` and the derived branch name of the workspace "feature1". -/
theorem findCheckoutDecomposition_inst :
    (getWorktreePathForBranch envFound "feature1-branch" "/repo").1 =
      findCheckoutForBranchAmended envFound "feature1-branch" "/repo" :=
  findCheckoutDecomposition envFound "feature1-branch" "/repo" (by decide)

/-- When every cached key is a valid name, looking up an invalid name misses. -/
theorem lookupServer_all_valid_none (cache : List (String × Handle)) (k : String)
    (hcache : ∀ kh ∈ cache, isValidWorktreeName kh.1 = true)
    (hk : isValidWorktreeName k = false) :
    lookupServer cache k = none := by
  induction cache with
  | nil => rfl
  | cons kh rest ih =>
    have hh := hcache kh (List.mem_cons_self kh rest)
    rcases kh with ⟨n, h⟩
    unfold lookupServer
    split
    · simp_all
    · exact ih (fun x hm => hcache x (List.mem_cons_of_mem _ hm))

/-- C4.  For every workspace name containing any character outside ASCII
letters, digits, dash and underscore, the request handler performs zero external
invocations and delegates the request to the next handler instead of calling
into provisioning.  (The hypothesis that all cached keys are valid is the
registry invariant: handles are only ever installed for validated names.) -/
theorem invalidNameNoExternalCalls (env : Env) (cache : List (String × Handle))
    (name repoPath : String)
    (hcache : ∀ kh ∈ cache, isValidWorktreeName kh.1 = true)
    (hinv : isValidWorktreeName name = false) :
    handleRequest env cache name repoPath = (.passedToNext, [], cache) := by
  have hl := lookupServer_all_valid_none cache name hcache hinv
  unfold handleRequest
  rw [hl]
  simp [hinv]

/-- Witness for `invalidNameNoExternalCalls` at the concrete name "a;rm". -/
theorem invalidNameNoExternalCalls_inst :
    handleRequest envGood [] "a;rm" "/repo" = (.passedToNext, [], []) :=
  invalidNameNoExternalCalls envGood [] "a;rm" "/repo" (by simp) (by decide)

/-- The request handler only ever installs handles under validated names, so the
registry invariant assumed by `invalidNameNoExternalCalls` is preserved. -/
theorem handleRequest_preserves_valid_keys (env : Env) (cache : List (String × Handle))
    (name repoPath : String)
    (hcache : ∀ kh ∈ cache, isValidWorktreeName kh.1 = true) :
    ∀ kh ∈ (handleRequest env cache name repoPath).2.2, isValidWorktreeName kh.1 = true := by
  intro kh hm
  unfold handleRequest at hm
  split at hm
  · exact hcache kh hm
  · split at hm
    · split at hm
      · exact hcache kh hm
      · split at hm
        · -- name = "main"
          simp only at hm
          split at hm
          · exact hcache kh hm
          · rcases List.mem_append.mp hm with h1 | h1
            · exact hcache kh h1
            · simp only [List.mem_singleton] at h1
              subst h1
              simp_all
        · -- provisioning path
          simp only at hm
          split at hm
          · split at hm
            · exact hcache kh hm
            · rcases List.mem_append.mp hm with h1 | h1
              · exact hcache kh h1
              · simp only [List.mem_singleton] at h1
                subst h1
                simp_all
          · exact hcache kh hm
    · exact hcache kh hm

/-- C9.  Resolving the workspace named "main" never invokes checkout creation
and yields an environment handle whose root path is the primary repository path
and whose base path is "/main/", while still performing the best-effort
dependency install against the repository path. -/
theorem mainWorkspaceResolve (env : Env) (cache : List (String × Handle)) (repoPath : String)
    (hl : lookupServer cache "main" = none) :
    handleRequest env cache "main" repoPath =
      (.served { root := repoPath, base := "/main/" }, [.pnpmInstall repoPath],
        cache ++ [("main", { root := repoPath, base := "/main/" })]) ∧
    (∀ op ∈ (handleRequest env cache "main" repoPath).2.1, isCreationOp op = false) ∧
    ExtOp.pnpmInstall repoPath ∈ (handleRequest env cache "main" repoPath).2.1 := by
  have hv : isValidWorktreeName "main" = true := by decide
  have hr : handleRequest env cache "main" repoPath =
      (.served { root := repoPath, base := "/main/" }, [.pnpmInstall repoPath],
        cache ++ [("main", { root := repoPath, base := "/main/" })]) := by
    unfold handleRequest
    rw [hl]
    simp [hv]
  refine ⟨hr, ?_, ?_⟩
  · intro op hop
    rw [hr] at hop
    simp only [List.mem_singleton] at hop
    subst hop
    rfl
  · rw [hr]
    simp

/-- Witness for `mainWorkspaceResolve` on the empty registry. -/
theorem mainWorkspaceResolve_inst :
    handleRequest envGood [] "main" "/repo" =
      (.served { root := "/repo", base := "/main/" }, [.pnpmInstall "/repo"],
        [] ++ [("main", { root := "/repo", base := "/main/" })]) ∧
    (∀ op ∈ (handleRequest envGood [] "main" "/repo").2.1, isCreationOp op = false) ∧
    ExtOp.pnpmInstall "/repo" ∈ (handleRequest envGood [] "main" "/repo").2.1 :=
  mainWorkspaceResolve envGood [] "/repo" rfl

/-- C2 (defect exhibited).  Under the interleaving in which both requests for
the unresolved workspace "feature1" pass the middleware's cache check before
either completes provisioning — possible because every external call is a
suspension point and nothing marks the name as in flight — the process issues
two checkout-creation commands instead of one.  The environment snapshot
`envGood` is what both in-flight attempts observe, corresponding to the
schedule in which both attempts' pre-checks complete before either creation
command runs. -/
theorem concurrentResolveDuplicatesCreation :
    ((twoReqRun envGood "feature1" "/repo" [false, true, false, true] twoReqInit).trace.filter
        isCreationOp).length = 2 ∧
    (twoReqRun envGood "feature1" "/repo" [false, true, false, true] twoReqInit).r1 =
      ReqPhase.finished
        (.served (Handle.mk (pathJoin (getWorktreesDir "/repo") "feature1") "/feature1/")) ∧
    (twoReqRun envGood "feature1" "/repo" [false, true, false, true] twoReqInit).r2 =
      ReqPhase.finished
        (.served (Handle.mk (pathJoin (getWorktreesDir "/repo") "feature1") "/feature1/")) :=
  ⟨by decide, by decide, by decide⟩
